import Mathlib

/-
  Verification development for the heap allocator in heap.c.

  The embedding is shallow: each C function that a claim depends on is
  translated into a Lean definition over explicit state (chunk headers as
  natural numbers, the free list as a Lean list, tag memory as a function
  from addresses to tag values, the doubly linked free list as a pair of
  next/prev maps over node identifiers).  Sizes and addresses are Nat,
  except where the C code can produce a negative intermediate (the
  remainder test in ck_split), which is modelled with Int.
-/

namespace Heap

/- Sizes of things (heap.c lines 38-41).  On the supported platform
   sizeof(void*) = 8 and sizeof(info) = 4. -/

def H_PS : Nat := 8
def H_IS : Nat := 4
def H_MINPAYLOAD : Nat := 2 * H_PS
def H_MINCHUNK : Nat := H_MINPAYLOAD + 2 * H_IS

/- Flag bits (heap.c line 47): the low bit of a tag marks a free chunk. -/
def H_FREE : Nat := 1

/- ck_size (heap.c lines 163-168): header & H_SIZEMASK.  The mask ~0x7
   clears the low three flag bits, which for a nonnegative tag value is
   exactly subtracting the remainder mod 8. -/
def ck_size (header : Nat) : Nat := header - header % 8

/- ck_payloadSize (heap.c lines 174-179): ck_size(c) - 2*H_IS. -/
def ck_payloadSize (header : Nat) : Nat := ck_size header - 2 * H_IS

/-
  fl_findBestFit (heap.c lines 326-363).  The free list is modelled as the
  Lean list of the chunk header tags in traversal order starting after the
  sentinel; the returned chunk is its header tag, with none standing for
  the sentinel node.  The C loop body ends with
      return bestSoFar;
  INSIDE the while loop (heap.c line 358), so every path through the first
  iteration returns: a first chunk that is too small returns the sentinel
  (bestSoFar still points at the dummy), a first chunk with exactly the
  target payload is returned, and a larger first chunk becomes bestSoFar
  and is returned by the end-of-body return.  Chunks after the first are
  never examined.
-/
def fl_findBestFit (l : List Nat) (targetPayload : Nat) : Option Nat :=
  match l with
  | [] => none
  | p :: _ =>
    if ck_payloadSize p < targetPayload then
      none
    else if ck_payloadSize p = targetPayload then
      some p
    else
      some p

/-
  hfree (heap.c lines 433-449).  The state affected by a call is the tag of
  the chunk being freed and the free list; the model carries the header
  value and the list of free chunk headers.  The guard in the source is
      if (!(theChunk->header)&H_FREE)
  and unary ! binds before binary &, so the tested value is
      (header == 0 ? 1 : 0) & 0x1.
-/
def hfree_model (header : Nat) (fl : List Nat) : Nat × List Nat :=
  if ((if header = 0 then 1 else 0) &&& H_FREE) ≠ 0 then
    -- ck_setInfo(theChunk, size|H_FREE); fl_insert(FreeList, theChunk)
    (ck_size header ||| H_FREE, (ck_size header ||| H_FREE) :: fl)
  else
    -- printf("Cannot free a chunk that is already free\n"); no state change
    (header, fl)

/- Rounding a payload request up to pointer-width granularity, as performed
   in ck_split (heap.c line 221): (paysize + H_PS-1)/H_PS*H_PS. -/
def roundUpToPtr (n : Nat) : Nat := (n + H_PS - 1) / H_PS * H_PS

/- Result of a successful ck_split, viewed at the level of sizes and of the
   free list.  size_c is the value written by ck_setInfo(c, size_c); hdr_d
   the value written by ck_setInfo(d, size_d|H_FREE); d_off the offset of
   the remainder chunk d from c (d = end_c + H_IS where end_c is the footer
   address of the trimmed c); freeList the free list after
   fl_insert(FreeList, d), which is head insertion. -/
structure SplitRes where
  size_c : Nat
  d_off : Nat
  hdr_d : Nat
  freeList : List Nat
  deriving DecidableEq, Repr

/-
  ck_split (heap.c lines 211-248), size-level view.  chunkSize is
  ck_size(c) for the chunk being split; paysize is the int parameter.
  CAUTION: the guards below are written as signed Int comparisons, but in
  the source H_MINPAYLOAD and H_MINCHUNK are size_t expressions, so the C
  comparisons convert their int operand to unsigned long.  The signed form
  coincides with the program exactly when paysize is nonnegative and the
  remainder size_d is nonnegative, which is the region in which hmalloc
  invokes ck_split: the clamped request is at least H_MINPAYLOAD and the
  chosen chunk has a payload capacity - a multiple of 8, since every tag
  size is - at least that request, making size_d nonnegative.  The
  bit-faithful translation of the guards, including the unsigned
  conversions, is ck_split_c further below; outside the agreeing region
  the two differ (see the claim about ck_split).
-/
def ck_split (chunkSize : Nat) (paysize : Int) (fl : List Nat) : Option SplitRes :=
  if (H_MINPAYLOAD : Int) ≤ paysize then
    let pays := roundUpToPtr paysize.toNat
    let size_c := pays + 2 * H_IS
    let size_d : Int := (chunkSize : Int) - size_c
    if size_d < (H_MINCHUNK : Int) then
      none
    else
      some { size_c := size_c,
             d_off := (ck_size size_c - H_IS) + H_IS,
             hdr_d := size_d.toNat ||| H_FREE,
             freeList := (size_d.toNat ||| H_FREE) :: fl }
  else
    none

/- Result of grow (heap.c lines 132-157), viewed through the addresses and
   tag values it produces.  sbrk(delta) returns the previous program break
   (oldHWM) and moves the break delta bytes up. -/
structure GrowRes where
  newHWM : Nat
  sentLowAddr : Nat
  sentHighAddr : Nat
  chunkAddr : Nat
  chunkHdr : Nat
  freeList : List Nat
  deriving DecidableEq, Repr

def grow_model (delta pageSize oldHWM : Nat) (fl : List Nat) : GrowRes :=
  let delta1 := delta + 4 * H_IS
  let delta2 := (delta1 + pageSize - 1) / pageSize * pageSize
  let c0 := oldHWM
  let newHWM := c0 + delta2
  let endAddr := newHWM - H_IS
  let c := c0 + H_IS
  let size := endAddr - c
  { newHWM := newHWM,
    sentLowAddr := c0,          -- *(info*)c = 0
    sentHighAddr := endAddr,    -- *end = 0
    chunkAddr := c,
    chunkHdr := size ||| H_FREE,  -- ck_setInfo(c, size|H_FREE)
    freeList := (size ||| H_FREE) :: fl }  -- fl_insert(l, c): head insertion

/- What hmalloc (heap.c lines 372-396) hands back, viewed through the
   payload capacity of the chosen chunk and the number of grow calls.
   The final ck_setInfo(found, ck_size(found)) clears the free flag and
   does not change the capacity. -/
structure MallocView where
  capacity : Nat
  growCount : Nat
  deriving DecidableEq, Repr

def hmalloc_clamp (size : Nat) : Nat :=
  if size < H_MINPAYLOAD then H_MINPAYLOAD else size

def hmalloc_view (fl : List Nat) (pageSize oldHWM size0 : Nat) : MallocView :=
  let size := hmalloc_clamp size0
  match fl_findBestFit fl size with
  | none =>
    -- found->header == 0 (the sentinel): found = grow(size, FreeList),
    -- and the grown chunk is used directly, without a split
    { capacity := ck_payloadSize (grow_model size pageSize oldHWM fl).chunkHdr,
      growCount := 1 }
  | some hdr =>
    -- ck_split(found, size) trims found when the remainder is viable
    match ck_split (ck_size hdr) (size : Int) fl with
    | some r => { capacity := ck_payloadSize r.size_c, growCount := 0 }
    | none => { capacity := ck_payloadSize hdr, growCount := 0 }

/- The payload address hmalloc returns when the search came back with the
   sentinel: found = grow(size, FreeList); return PTR_ADD(found, H_IS). -/
def hmalloc_growPath_ptr (pageSize oldHWM size0 : Nat) : Nat :=
  (grow_model (hmalloc_clamp size0) pageSize oldHWM []).chunkAddr + H_IS

/- hstrdup (heap.c lines 455-458): strcpy((char*)hmalloc(strlen(s)), s).
   The allocation request is strlen(s); strcpy writes the strlen(s) bytes
   of the string plus the terminating null byte. -/
def hstrdup_request (n : Nat) : Nat := n
def hstrdup_bytesWritten (n : Nat) : Nat := n + 1

/- memset(p, 0, n) over a payload modelled as its list of bytes: the first
   n bytes become zero, the rest keep their previous contents. -/
def memset0 : List Nat → Nat → List Nat
  | l, 0 => l
  | [], _ + 1 => []
  | _ :: bs, n + 1 => 0 :: memset0 bs n

/- hcalloc (heap.c lines 402-407): memset(hmalloc(n), 0, n) with
   n = count*size.  payload is the byte contents of the chunk hmalloc
   returned; its length is the payload capacity, which can exceed n
   (minimum-payload clamp, rounding, or an unsplit best-fit chunk), and the
   code does not constrain the bytes past n. -/
def hcalloc_model (count size : Nat) (payload : List Nat) : List Nat :=
  memset0 payload (count * size)

/- hrealloc (heap.c lines 414-426) in the growing case: the old payload is
   too small, so q = hmalloc(size); memcpy(q, p, size); hfree(p).  The
   memcpy length is the requested size, so the bytes read start at the old
   payload and continue into whatever follows it in memory (footer, next
   chunk header, ...), modelled by the list beyond.  In the other case p is
   returned unchanged (none here). -/
def hrealloc_model (oldPayload beyond : List Nat) (size : Nat) : Option (List Nat) :=
  if oldPayload.length < size then
    some ((oldPayload ++ beyond).take size)
  else
    none

/-
  Pointer-level model of the circular doubly linked free list, for the
  operations whose effect depends on the actual link surgery
  (fl_insert, fl_remove, ck_merge; heap.c lines 256-302).  Nodes are
  identified by natural numbers; node 0 is the FreeList sentinel.  The
  state carries the next and prev links and the header tag of every node.
-/
structure PtrSt where
  next : Nat → Nat
  prev : Nat → Nat
  hdr : Nat → Nat

def updFn (f : Nat → Nat) (x v : Nat) : Nat → Nat :=
  fun y => if y = x then v else f y

def FreeListNode : Nat := 0

/- fl_insert(l, c) (heap.c lines 281-289), statement by statement:
   c->prev = l; c->next = l->next; l->next->prev = c; l->next = c. -/
def fl_insert_ptr (s0 : PtrSt) (l c : Nat) : PtrSt :=
  let s1 : PtrSt := { s0 with prev := updFn s0.prev c l }
  let s2 : PtrSt := { s1 with next := updFn s1.next c (s1.next l) }
  let s3 : PtrSt := { s2 with prev := updFn s2.prev (s2.next l) c }
  { s3 with next := updFn s3.next l c }

/- fl_remove(c) (heap.c lines 296-302):
   c->prev->next = c->next; c->next->prev = c->prev. -/
def fl_remove_ptr (s0 : PtrSt) (c : Nat) : PtrSt :=
  let s1 : PtrSt := { s0 with next := updFn s0.next (s0.prev c) (s0.next c) }
  { s1 with prev := updFn s1.prev (s1.next c) (s1.prev c) }

/- ck_merge(c1, c2) (heap.c lines 256-270).  Note the final call in the
   source is fl_insert(sum, FreeList): the list argument is sum and the
   inserted chunk is the FreeList sentinel, in that order. -/
def ck_merge_ptr (s0 : PtrSt) (c1 c2 : Nat) : PtrSt :=
  let s1 := fl_remove_ptr s0 c1
  let s2 := fl_remove_ptr s1 c2
  let sum := c1
  let totalSize := ck_size (s2.hdr c1) + ck_size (s2.hdr c2)
  let s3 : PtrSt := { s2 with hdr := updFn s2.hdr sum (totalSize ||| H_FREE) }
  fl_insert_ptr s3 sum FreeListNode

/- The free list as seen by a forward traversal from the sentinel l,
   following next links until l comes back (fl_size / fl_print walk);
   fuel bounds the walk. -/
def fl_toList (s : PtrSt) (l p : Nat) : Nat → List Nat
  | 0 => []
  | fuel + 1 => if p = l then [] else p :: fl_toList s l (s.next p) fuel

/- Free list holding exactly the two adjacent free chunks 1 (size 32) and
   2 (size 40): sentinel 0 with 0 -> 1 -> 2 -> 0. -/
def mergeSt0 : PtrSt where
  next := fun n => if n = 0 then 1 else if n = 1 then 2 else 0
  prev := fun n => if n = 0 then 2 else if n = 1 then 0 else 1
  hdr := fun n => if n = 1 then 33 else if n = 2 then 41 else 0

/-
  Tag-memory model: the info fields of the heap viewed as a map from byte
  addresses to the 4-byte tag value stored there.  Used for the operations
  whose claims are about the header and footer writes themselves
  (ck_setInfo, ck_split, ck_merge, grow).
-/
abbrev TagMem := Nat → Nat

def writeTag (m : TagMem) (a v : Nat) : TagMem :=
  fun x => if x = a then v else m x

/- ck_footerAddr (heap.c lines 185-191) with the header value passed
   explicitly: PTR_ADD(c, size - H_IS) where size = header & H_SIZEMASK. -/
def ck_footerAddr (c hdr : Nat) : Nat := c + ck_size hdr - H_IS

/- ck_setInfo (heap.c lines 198-205): c->header = i, then the footer - at
   the address computed from the size bits of the just-written header - is
   set to i as well. -/
def ck_setInfo_mem (m : TagMem) (c i : Nat) : TagMem :=
  writeTag (writeTag m c i) (ck_footerAddr c i) i

/- ck_split (heap.c lines 211-248) acting on tag memory.  CHUNK_SIZE is
   read from the header of c; on success c is trimmed in place with
   ck_setInfo(c, size_c) and the remainder d - starting at
   end_c + H_IS - becomes a free chunk via ck_setInfo(d, size_d|H_FREE).
   The guards are the same signed form as in ck_split above, agreeing with
   the unsigned comparisons of the source exactly when paysize and the
   remainder are nonnegative; the header-footer pairing claim only uses
   this definition under its isSome hypothesis, which keeps it inside that
   agreeing region - the successful splits reachable between public
   calls. -/
def ck_split_mem (m : TagMem) (c : Nat) (paysize : Int) : Option TagMem :=
  if (H_MINPAYLOAD : Int) ≤ paysize then
    let pays := roundUpToPtr paysize.toNat
    let size_c := pays + 2 * H_IS
    let size_d : Int := (ck_size (m c) : Int) - size_c
    if size_d < (H_MINCHUNK : Int) then
      none
    else
      let m1 := ck_setInfo_mem m c size_c
      let d := (ck_footerAddr c size_c) + H_IS
      some (ck_setInfo_mem m1 d (size_d.toNat ||| H_FREE))
  else
    none

/- The tag writes of ck_merge (heap.c lines 256-270): both sizes are read,
   summed, and the single ck_setInfo(sum, totalSize|H_FREE) is issued at
   c1.  The list surgery is modelled separately (ck_merge_ptr). -/
def ck_merge_mem (m : TagMem) (c1 c2 : Nat) : TagMem :=
  ck_setInfo_mem m c1 ((ck_size (m c1) + ck_size (m c2)) ||| H_FREE)

/- The tag writes of grow (heap.c lines 132-157): zero sentinels at the
   start of the claimed range and at its last info slot, then
   ck_setInfo(c, size|H_FREE) for the chunk spanning the interior. -/
def grow_mem (m : TagMem) (oldHWM delta pageSize : Nat) : TagMem :=
  let delta1 := delta + 4 * H_IS
  let delta2 := (delta1 + pageSize - 1) / pageSize * pageSize
  let newHWM := oldHWM + delta2
  let m1 := writeTag m oldHWM 0
  let endAddr := newHWM - H_IS
  let m2 := writeTag m1 endAddr 0
  let c := oldHWM + H_IS
  ck_setInfo_mem m2 c ((endAddr - c) ||| H_FREE)

/- A concrete tag memory used to instantiate the universally quantified
   theorems: a single free chunk of size 64 whose header sits at
   address 100. -/
def splitWitMem : TagMem := fun a => if a = 100 then 64 else 0

/-
  Bit-faithful model of the guard arithmetic of ck_split (heap.c lines
  211-248).  H_MINPAYLOAD, H_MINCHUNK, H_PS and H_IS all expand to sizeof
  expressions of type size_t (64-bit unsigned), so wherever they meet the
  int values paysize, size_c and size_d the usual arithmetic conversions
  turn the int operand into an unsigned long.  uLong is that conversion
  (the int value taken mod 2^64); asInt is the conversion back from
  unsigned long to a 32-bit int (low 32 bits read as two's complement, the
  behavior of the target platform).
-/
def uLong (i : Int) : Nat := (i % (2 ^ 64 : Int)).toNat

def asInt (n : Nat) : Int :=
  if n % 2 ^ 32 < 2 ^ 31 then ((n % 2 ^ 32 : Nat) : Int)
  else ((n % 2 ^ 32 : Nat) : Int) - 2 ^ 32

/- The 32-bit two's-complement pattern of an int value; bitwise operations
   on ints act on this pattern, so size_d|H_FREE is the int whose pattern
   is the pattern of size_d with the low bit set. -/
def bits32 (i : Int) : Nat := (i % (2 ^ 32 : Int)).toNat

/- header & H_SIZEMASK on a two's-complement int value: clearing the low
   three bits subtracts the remainder mod 8 in the Euclidean sense, also
   for negative headers (e.g. -7 & ~0x7 = -8). -/
def ck_size_c (h : Int) : Int := h - h % 8

structure SplitResC where
  size_c : Int
  d_off : Int
  hdr_d : Int
  freeList : List Int
  deriving DecidableEq, Repr

/-
  ck_split with the unsigned guard comparisons of the source spelled out.
  chunkSize is the int CHUNK_SIZE = ck_size(c); paysize0 the int parameter.
  Each C expression is annotated with the conversions it performs.
-/
def ck_split_c (chunkSize : Int) (paysize0 : Int) (fl : List Int) : Option SplitResC :=
  -- if (paysize >= H_MINPAYLOAD): the int paysize converts to unsigned long
  if H_MINPAYLOAD ≤ uLong paysize0 then
    -- paysize = (paysize + H_PS-1)/H_PS*H_PS: unsigned long arithmetic
    -- (wrapping mod 2^64), stored back into the int parameter
    let paysize : Int := asInt ((uLong paysize0 + H_PS - 1) % 2 ^ 64 / H_PS * H_PS)
    -- info size_c = paysize + 2*H_IS: unsigned long arithmetic, stored
    -- into an info (int)
    let size_c : Int := asInt ((uLong paysize + 2 * H_IS) % 2 ^ 64)
    -- info size_d = CHUNK_SIZE - size_c: plain int arithmetic
    let size_d : Int := chunkSize - size_c
    -- if (size_d < H_MINCHUNK): size_d converts to unsigned long, so a
    -- negative remainder becomes huge and escapes the test
    if uLong size_d < H_MINCHUNK then
      none
    else
      -- ck_setInfo(c, size_c); d = end_c + H_IS; ck_setInfo(d, size_d|H_FREE);
      -- fl_insert(FreeList, d)
      some { size_c := size_c,
             d_off := (ck_size_c size_c - H_IS) + H_IS,
             hdr_d := asInt (bits32 size_d ||| H_FREE),
             freeList := asInt (bits32 size_d ||| H_FREE) :: fl }
  else
    none

end Heap

/-- Claim C1: the claim says hfree marks a non-free chunk free and inserts it
into the free list, and reports an error leaving state unchanged only for a
chunk whose free flag is already set.  The code instead tests
(!(header))&H_FREE, which is nonzero only when the header is 0, so every
real chunk (free flag set or not) takes the diagnostic branch and nothing
is ever freed: with an in-use chunk of tag 24 (free bit clear) the chunk
tag and the free list are left unchanged, and the same happens for a free
chunk of tag 25. -/
theorem Heap.hfree_never_frees :
    (24 &&& Heap.H_FREE = 0 ∧ Heap.hfree_model 24 [] = (24, [])) ∧
    (25 &&& Heap.H_FREE = 1 ∧ Heap.hfree_model 25 [] = (25, [])) := by
  decide

/-- Claim C2: the claim says findBestFit returns the chunk of minimal
sufficient payload capacity over the whole list, and on capacities
{16, 64, 128} with target 50 selects the 64-capacity chunk.  Because the
return statement at heap.c line 358 sits inside the scanning loop, the
function inspects only the first chunk: with headers [25, 73, 137]
(payload capacities 16, 64 and 128) and target 50, the first capacity 16
is too small and the sentinel is returned even though the 64-capacity
chunk fits. -/
theorem Heap.findBestFit_first_chunk_only :
    Heap.fl_findBestFit [25, 73, 137] 50 = none ∧
    Heap.ck_payloadSize 73 = 64 ∧ 50 ≤ 64 := by
  decide

/-- Claim C3: the claim says hrealloc with newSize above the old capacity
copies at most min(oldCapacity, newSize) bytes and never reads beyond the
old payload.  The code calls memcpy(q, p, size) with the NEW size: with an
old payload of 16 bytes (all 7) and newSize 32, the 32 copied bytes
include the 16 bytes (all 9) that lie beyond the old payload, although
min(16, 32) = 16. -/
theorem Heap.hrealloc_overcopies :
    Heap.hrealloc_model (List.replicate 16 7) (List.replicate 16 9) 32
      = some (List.replicate 16 7 ++ List.replicate 16 9) ∧
    min 16 32 = 16 := by
  decide

/-- Claim C4 counterexample: the claim says every byte of the payload
returned by hcalloc is zero.  For count = 1 and elementSize = 4 the
allocation is clamped to the minimum payload, so the capacity (16 here)
exceeds count*elementSize = 4, and memset only zeroes 4 bytes: with
residual byte contents 9 (the chunk was recycled from the free list, whose
link words occupy the payload), byte 4 of the returned payload is still 9. -/
theorem Heap.hcalloc_residual_byte :
    (Heap.hcalloc_model 1 4 (List.replicate 16 9))[4]? = some 9 ∧
    (Heap.hcalloc_model 1 4 (List.replicate 16 9)).length = 16 ∧
    1 * 4 < 16 := by
  decide

/-- Claim C5: the claim says hstrdup allocates at least n+1 bytes of payload
for a string of length n and keeps all n+1 copied bytes inside the payload.
The code allocates hmalloc(strlen(s)) without the +1: for a string of
length 16 served by an exact-fit free chunk (header 25, payload capacity
16), the capacity is 16 while strcpy writes 17 bytes, so the terminator
lands outside the payload (on the chunk footer). -/
theorem Heap.hstrdup_overflows :
    (Heap.hmalloc_view [25] 4096 0 (Heap.hstrdup_request 16)).capacity = 16 ∧
    Heap.hstrdup_bytesWritten 16 = 17 ∧
    (Heap.hmalloc_view [25] 4096 0 (Heap.hstrdup_request 16)).capacity
      < Heap.hstrdup_bytesWritten 16 := by
  decide

/-- Claim C6 counterexample: the claim says allocate(1) returns a chunk
whose payload capacity equals the minimum payload size (16) including on a
fresh heap.  On a fresh heap (empty free list) the search returns the
sentinel, hmalloc takes the grow path and uses the newly grown chunk
directly without splitting it, so with page size 4096 the returned chunk
has payload capacity 4080, not 16. -/
theorem Heap.hmalloc_fresh_capacity_ne_min :
    (Heap.hmalloc_view [] 4096 0 1).capacity = 4080 ∧
    (Heap.hmalloc_view [] 4096 0 1).capacity ≠ Heap.H_MINPAYLOAD := by
  decide

/-- Claim C7: the claim says ck_merge removes both chunks from the free
list, merges them into one free chunk at the lower address, and reinserts
the merged chunk, so that the list afterwards contains the merged chunk
exactly once and neither original.  The final call in the source swaps the
fl_insert arguments (fl_insert(sum, FreeList) instead of
fl_insert(FreeList, sum)), splicing the sentinel into the stale links of
the removed chunk: starting from a list holding exactly the two adjacent
free chunks 1 and 2, the forward traversal after ck_merge(1, 2) yields
[2] - the absorbed chunk 2 instead of the merged chunk 1 - even though the
merged tag 73 (sizes 32+40, free flag) was correctly written to chunk 1. -/
theorem Heap.merge_corrupts_freelist :
    Heap.fl_toList Heap.mergeSt0 0 (Heap.mergeSt0.next 0) 10 = [1, 2] ∧
    Heap.fl_toList (Heap.ck_merge_ptr Heap.mergeSt0 1 2) 0
      ((Heap.ck_merge_ptr Heap.mergeSt0 1 2).next 0) 10 = [2] ∧
    (Heap.ck_merge_ptr Heap.mergeSt0 1 2).hdr 1 = 73 := by
  decide

namespace Heap

theorem lor_one_of_even (n : Nat) (h : n % 2 = 0) : n ||| 1 = n + 1 := by
  apply Nat.eq_of_testBit_eq
  intro i
  cases i with
  | zero =>
    have h1 : (n + 1) % 2 = 1 := by omega
    simp [Nat.testBit_or, Nat.testBit_zero, h, h1]
  | succ j =>
    rw [Nat.testBit_or, Nat.testBit_add_one, Nat.testBit_add_one, Nat.testBit_add_one]
    have h1 : (n + 1) / 2 = n / 2 := by omega
    have h2 : (1 : Nat) / 2 = 0 := rfl
    rw [h1, h2, Nat.zero_testBit, Bool.or_false]

theorem ck_size_lor_one (n : Nat) (h : n % 8 = 0) : ck_size (n ||| 1) = n := by
  rw [lor_one_of_even n (by omega)]
  unfold ck_size
  omega

theorem le_roundUp (x p : Nat) (hp : 0 < p) : x ≤ (x + p - 1) / p * p := by
  rcases Nat.eq_zero_or_pos x with hx | hx
  · simp [hx]
  · have hxp : x + p - 1 = (x - 1) + p := by omega
    have hq : (x + p - 1) / p = (x - 1) / p + 1 := by
      rw [hxp, Nat.add_div_right _ hp]
    have hlt : (x - 1) / p < (x + p - 1) / p := by omega
    have h2 := (Nat.div_lt_iff_lt_mul hp).mp hlt
    exact Nat.le_of_pred_lt h2

theorem dvd_roundUp (x p : Nat) : p ∣ (x + p - 1) / p * p :=
  Dvd.intro_left _ rfl

theorem roundUpToPtr_mod8 (n : Nat) : roundUpToPtr n % 8 = 0 := by
  unfold roundUpToPtr H_PS
  omega

theorem le_roundUpToPtr (n : Nat) : n ≤ roundUpToPtr n :=
  le_roundUp n 8 (by omega)

end Heap

/-- Claim C8: the claim says ck_split returns none exactly when the
requested payload is below the minimum payload size or the remainder
(chunk size minus the rounded-up payload plus header/footer overhead)
would be smaller than the minimum chunk size, keeping the chunk intact in
those cases.  H_MINPAYLOAD and H_MINCHUNK are size_t expressions, so both
guards convert their int operand to unsigned (against the intent of the
comments at heap.c lines 218 and 226): on a chunk of size 24 with
requested payload 17 the remainder is 24 - 32 = -8, below the minimum
chunk size, yet the code splits - it tags c with size 32 (past the end of
the chunk), fabricates a remainder chunk with tag -8|H_FREE = -7, inserts
it into the free list and returns it non-null; and a requested payload of
-1, below the minimum payload, also passes the first guard and splits a
chunk of size 40 down to size 8, below the minimum chunk size. -/
theorem Heap.ck_split_unsigned_guards :
    (Heap.ck_split_c 24 17 [] = some ⟨32, 32, -7, [-7]⟩ ∧
     (24 : Int) - 32 < (Heap.H_MINCHUNK : Int)) ∧
    (Heap.ck_split_c 40 (-1) [] = some ⟨8, 8, 33, [33]⟩ ∧
     (-1 : Int) < (Heap.H_MINPAYLOAD : Int) ∧
     (8 : Int) < (Heap.H_MINCHUNK : Int)) := by
  decide

namespace Heap

theorem fl_findBestFit_some (l : List Nat) (t p : Nat)
    (h : fl_findBestFit l t = some p) : t ≤ ck_payloadSize p := by
  cases l with
  | nil => cases h
  | cons q rest =>
    simp only [fl_findBestFit] at h
    split_ifs at h with h1 h2
    · injection h with h3; subst h3; omega
    · injection h with h3; subst h3; omega

theorem ck_split_some_size_c (cs : Nat) (ps : Int) (fl : List Nat) (r : SplitRes)
    (h : ck_split cs ps fl = some r) :
    r.size_c = roundUpToPtr ps.toNat + 2 * H_IS := by
  simp only [ck_split] at h
  split_ifs at h with h1 h2
  injection h with h3
  subst h3
  rfl

theorem grow_payload_ge (delta pageSize oldHWM : Nat) (fl : List Nat)
    (hp : 0 < pageSize) (h8 : 8 ∣ pageSize) :
    delta ≤ ck_payloadSize (grow_model delta pageSize oldHWM fl).chunkHdr := by
  unfold grow_model
  dsimp only
  set d2 := (delta + 4 * H_IS + pageSize - 1) / pageSize * pageSize with hd2
  have h1 : delta + 4 * H_IS ≤ d2 := le_roundUp _ _ hp
  have h2 : 8 ∣ d2 := dvd_trans h8 (dvd_roundUp _ _)
  have hsize : oldHWM + d2 - H_IS - (oldHWM + H_IS) = d2 - 8 := by
    unfold H_IS at *
    omega
  rw [hsize]
  have h3 : (d2 - 8) % 8 = 0 := by
    unfold H_IS at *
    omega
  unfold ck_payloadSize H_FREE
  rw [ck_size_lor_one _ h3]
  unfold H_IS at *
  omega

/- The payload capacity hmalloc hands back is never below the clamped
   request, whichever path serves it: the grown chunk covers the request,
   an exact or unsplit best-fit chunk already had enough payload, and a
   split trims to the rounded-up request. -/
theorem hmalloc_capacity_ge (fl : List Nat) (pageSize oldHWM size0 : Nat)
    (hp : 0 < pageSize) (h8 : 8 ∣ pageSize) :
    hmalloc_clamp size0 ≤ (hmalloc_view fl pageSize oldHWM size0).capacity := by
  simp only [hmalloc_view]
  cases hfb : fl_findBestFit fl (hmalloc_clamp size0) with
  | none =>
    exact grow_payload_ge _ _ _ _ hp h8
  | some hdr =>
    dsimp only
    have hple := fl_findBestFit_some fl _ hdr hfb
    cases hsp : ck_split (ck_size hdr) ((hmalloc_clamp size0 : Nat) : Int) fl with
    | none =>
      exact hple
    | some r =>
      have hsc := ck_split_some_size_c _ _ _ _ hsp
      have hmod := roundUpToPtr_mod8 (((hmalloc_clamp size0 : Nat) : Int)).toNat
      have htn : (((hmalloc_clamp size0 : Nat) : Int)).toNat = hmalloc_clamp size0 := by
        omega
      have hge := le_roundUpToPtr (hmalloc_clamp size0)
      rw [htn] at hsc hmod
      show hmalloc_clamp size0 ≤ ck_payloadSize r.size_c
      rw [hsc]
      unfold ck_payloadSize ck_size H_IS at *
      omega

end Heap

/-- Claim C6 (amended): hmalloc clamps any request below the minimum
payload up to the minimum payload (16 bytes) before searching, so
allocate(1) searches for 16 bytes and the returned chunk always has
payload capacity at least the clamped request - never 1.  The capacity
equals the minimum payload only when the chosen free chunk is an exact fit
or is trimmed by a successful split; on a fresh heap the request is served
by the newly grown chunk used directly, whose capacity is the page-rounded
growth minus the sentinel and tag overhead (4080 for a 4096-byte page),
not the minimum payload size. -/
theorem Heap.hmalloc_clamp_capacity (fl : List Nat) (pageSize oldHWM size0 : Nat)
    (hp : 0 < pageSize) (h8 : 8 ∣ pageSize) :
    Heap.hmalloc_clamp 1 = Heap.H_MINPAYLOAD ∧
    Heap.H_MINPAYLOAD ≤ Heap.hmalloc_clamp size0 ∧
    Heap.hmalloc_clamp size0 ≤ (Heap.hmalloc_view fl pageSize oldHWM size0).capacity ∧
    (Heap.hmalloc_view [] 4096 0 1).capacity = 4080 := by
  refine ⟨by decide, ?_, ?_, by decide⟩
  · unfold Heap.hmalloc_clamp Heap.H_MINPAYLOAD Heap.H_PS
    split_ifs <;> omega
  · exact Heap.hmalloc_capacity_ge fl pageSize oldHWM size0 hp h8

/-- Witness for claim C6 (amended): the theorem applied to a fresh heap
(empty free list), page size 4096 and request 1. -/
theorem Heap.hmalloc_clamp_capacity_witness :
    (0 : Nat) < 4096 ∧ (8 : Nat) ∣ 4096 ∧
    (Heap.hmalloc_clamp 1 = Heap.H_MINPAYLOAD ∧
     Heap.H_MINPAYLOAD ≤ Heap.hmalloc_clamp 1 ∧
     Heap.hmalloc_clamp 1 ≤ (Heap.hmalloc_view [] 4096 0 1).capacity ∧
     (Heap.hmalloc_view [] 4096 0 1).capacity = 4080) :=
  ⟨by decide, by decide, Heap.hmalloc_clamp_capacity [] 4096 0 1 (by decide) (by decide)⟩

namespace Heap

theorem memset0_getElem (l : List Nat) (n i : Nat) (hi : i < n) (hl : i < l.length) :
    (memset0 l n)[i]? = some 0 := by
  induction l generalizing n i with
  | nil => simp at hl
  | cons b bs ih =>
    cases n with
    | zero => omega
    | succ m =>
      cases i with
      | zero => simp [memset0]
      | succ j =>
        simp only [memset0, List.getElem?_cons_succ]
        exact ih m j (by omega) (by simpa using hl)

end Heap

/-- Claim C4 (amended): hcalloc(count, elementSize) returns a payload
whose capacity is at least count*elementSize and zero-fills exactly the
first count*elementSize bytes of it - every byte at an index below
count*elementSize reads zero - but not necessarily the entire payload:
when the capacity exceeds count*elementSize the bytes beyond that product
keep whatever the memory previously held.  Here payload is the byte
contents of the chunk hmalloc(count*size) returned, so its length is that
chunk's payload capacity, which the first conjunct bounds from below. -/
theorem Heap.hcalloc_zeroes_requested (fl : List Nat) (pageSize oldHWM count size : Nat)
    (payload : List Nat) (i : Nat)
    (hp : 0 < pageSize) (h8 : 8 ∣ pageSize)
    (hcap : payload.length = (Heap.hmalloc_view fl pageSize oldHWM (count * size)).capacity)
    (hi : i < count * size) :
    count * size ≤ (Heap.hmalloc_view fl pageSize oldHWM (count * size)).capacity ∧
    (Heap.hcalloc_model count size payload)[i]? = some 0 := by
  have hcapge := Heap.hmalloc_capacity_ge fl pageSize oldHWM (count * size) hp h8
  have hclampge : count * size ≤ Heap.hmalloc_clamp (count * size) := by
    unfold Heap.hmalloc_clamp
    split_ifs <;> omega
  refine ⟨by omega, ?_⟩
  exact Heap.memset0_getElem payload (count * size) i hi (by omega)

/-- Witness for claim C4 (amended): hcalloc(1, 4) served by an exact-fit
free chunk of payload capacity 16 (header 25): the capacity covers the 4
requested bytes and byte 2 of the recycled 16-byte payload is zeroed. -/
theorem Heap.hcalloc_zeroes_requested_witness :
    (0 : Nat) < 4096 ∧ (8 : Nat) ∣ 4096 ∧
    ([9, 9, 9, 9, 9, 9, 9, 9, 9, 9, 9, 9, 9, 9, 9, 9] : List Nat).length
      = (Heap.hmalloc_view [25] 4096 0 (1 * 4)).capacity ∧
    2 < 1 * 4 ∧
    (1 * 4 ≤ (Heap.hmalloc_view [25] 4096 0 (1 * 4)).capacity ∧
     (Heap.hcalloc_model 1 4 [9, 9, 9, 9, 9, 9, 9, 9, 9, 9, 9, 9, 9, 9, 9, 9])[2]? = some 0) :=
  ⟨by decide, by decide, by decide, by decide,
    Heap.hcalloc_zeroes_requested [25] 4096 0 1 4
      [9, 9, 9, 9, 9, 9, 9, 9, 9, 9, 9, 9, 9, 9, 9, 9] 2
      (by decide) (by decide) (by decide) (by decide)⟩

namespace Heap

theorem writeTag_self (m : TagMem) (a v : Nat) : writeTag m a v a = v := by
  unfold writeTag
  simp

theorem writeTag_other (m : TagMem) (a v x : Nat) (h : x ≠ a) :
    writeTag m a v x = m x := by
  unfold writeTag
  simp [h]

theorem ck_setInfo_mem_header (m : TagMem) (c i : Nat) :
    ck_setInfo_mem m c i c = i := by
  unfold ck_setInfo_mem writeTag
  split_ifs <;> simp_all

theorem ck_setInfo_mem_footer (m : TagMem) (c i : Nat) :
    ck_setInfo_mem m c i (ck_footerAddr c i) = i := by
  unfold ck_setInfo_mem writeTag
  simp

theorem ck_setInfo_mem_other (m : TagMem) (c i x : Nat)
    (h1 : x ≠ c) (h2 : x ≠ ck_footerAddr c i) :
    ck_setInfo_mem m c i x = m x := by
  unfold ck_setInfo_mem writeTag
  simp [h1, h2]

theorem grow_mem_sentinels (m : TagMem) (oldHWM delta pageSize d2 : Nat)
    (hd2 : d2 = (delta + 4 * H_IS + pageSize - 1) / pageSize * pageSize)
    (hp : 0 < pageSize) (h8 : 8 ∣ pageSize) :
    grow_mem m oldHWM delta pageSize oldHWM = 0 ∧
    grow_mem m oldHWM delta pageSize (oldHWM + d2 - H_IS) = 0 := by
  have h1 : delta + 4 * H_IS ≤ d2 := by
    rw [hd2]
    exact le_roundUp _ _ hp
  have h2 : 8 ∣ d2 := by
    rw [hd2]
    exact dvd_trans h8 (dvd_roundUp _ _)
  have h16 : 16 ≤ d2 := by
    unfold H_IS at h1
    omega
  unfold grow_mem
  rw [← hd2]
  have hsz : oldHWM + d2 - H_IS - (oldHWM + H_IS) = d2 - 8 := by
    unfold H_IS
    omega
  rw [hsz]
  have hmod : (d2 - 8) % 8 = 0 := by omega
  have hck : ck_size ((d2 - 8) ||| H_FREE) = d2 - 8 := by
    unfold H_FREE
    exact ck_size_lor_one _ hmod
  have hfoot : ck_footerAddr (oldHWM + H_IS) ((d2 - 8) ||| H_FREE)
      = oldHWM + d2 - 8 := by
    unfold ck_footerAddr
    rw [hck]
    unfold H_IS
    omega
  constructor
  · rw [ck_setInfo_mem_other _ _ _ _ (by unfold H_IS; omega)
      (by rw [hfoot]; omega)]
    rw [writeTag_other _ _ _ _ (by unfold H_IS; omega)]
    exact writeTag_self m oldHWM 0
  · rw [ck_setInfo_mem_other _ _ _ _ (by unfold H_IS; omega)
      (by rw [hfoot]; unfold H_IS; omega)]
    exact writeTag_self _ _ 0

end Heap

/-- Claim C9: when no free chunk satisfies the request, hmalloc performs
exactly one segment growth; grow extends the claimed space by a whole
multiple of the page size at least covering the request plus the fixed
overhead, writes zero-valued sentinel tags at the very start of the newly
claimed range and at its last info slot, formats the interior between the
sentinels as a single free chunk (free flag set) spanning from the first
byte after the low sentinel to the high sentinel, inserts it at the head
of the free list and returns it; the payload pointer hmalloc then hands to
the caller lies within the newly claimed range [oldHWM, newHWM). -/
theorem Heap.grow_correct (fl : List Nat) (pageSize oldHWM size0 : Nat) (m : Heap.TagMem)
    (hp : 0 < pageSize) (h8 : 8 ∣ pageSize)
    (hmiss : Heap.fl_findBestFit fl (Heap.hmalloc_clamp size0) = none) :
    (Heap.hmalloc_view fl pageSize oldHWM size0).growCount = 1 ∧
    (let g := Heap.grow_model (Heap.hmalloc_clamp size0) pageSize oldHWM fl
     pageSize ∣ (g.newHWM - oldHWM) ∧
     Heap.hmalloc_clamp size0 + 4 * Heap.H_IS ≤ g.newHWM - oldHWM ∧
     g.sentLowAddr = oldHWM ∧
     g.sentHighAddr = g.newHWM - Heap.H_IS ∧
     Heap.grow_mem m oldHWM (Heap.hmalloc_clamp size0) pageSize g.sentLowAddr = 0 ∧
     Heap.grow_mem m oldHWM (Heap.hmalloc_clamp size0) pageSize g.sentHighAddr = 0 ∧
     g.chunkAddr = oldHWM + Heap.H_IS ∧
     g.chunkHdr &&& Heap.H_FREE = 1 ∧
     g.chunkAddr + Heap.ck_size g.chunkHdr = g.sentHighAddr ∧
     g.freeList = g.chunkHdr :: fl ∧
     Heap.hmalloc_growPath_ptr pageSize oldHWM size0 = g.chunkAddr + Heap.H_IS ∧
     oldHWM ≤ Heap.hmalloc_growPath_ptr pageSize oldHWM size0 ∧
     Heap.hmalloc_growPath_ptr pageSize oldHWM size0 < g.newHWM) := by
  constructor
  · simp only [Heap.hmalloc_view]
    rw [hmiss]
  · intro g
    have hd2 :
        (Heap.hmalloc_clamp size0 + 4 * Heap.H_IS + pageSize - 1) / pageSize * pageSize
          = (Heap.hmalloc_clamp size0 + 4 * Heap.H_IS + pageSize - 1) / pageSize * pageSize :=
      rfl
    set d2 := (Heap.hmalloc_clamp size0 + 4 * Heap.H_IS + pageSize - 1) / pageSize * pageSize
      with hd2def
    have h1 : Heap.hmalloc_clamp size0 + 4 * Heap.H_IS ≤ d2 :=
      Heap.le_roundUp _ _ hp
    have h2 : 8 ∣ d2 := dvd_trans h8 (Heap.dvd_roundUp _ _)
    have hpd : pageSize ∣ d2 := Heap.dvd_roundUp _ _
    have h16 : 16 ≤ d2 := by
      unfold Heap.H_IS at h1
      omega
    have hg : g = Heap.grow_model (Heap.hmalloc_clamp size0) pageSize oldHWM fl := rfl
    have hsz : oldHWM + d2 - Heap.H_IS - (oldHWM + Heap.H_IS) = d2 - 8 := by
      unfold Heap.H_IS
      omega
    have hmod : (d2 - 8) % 8 = 0 := by omega
    have hck : Heap.ck_size ((d2 - 8) ||| Heap.H_FREE) = d2 - 8 := by
      unfold Heap.H_FREE
      exact Heap.ck_size_lor_one _ hmod
    have hgfields : g.newHWM = oldHWM + d2 ∧ g.sentLowAddr = oldHWM ∧
        g.sentHighAddr = oldHWM + d2 - Heap.H_IS ∧ g.chunkAddr = oldHWM + Heap.H_IS ∧
        g.chunkHdr = (d2 - 8) ||| Heap.H_FREE ∧
        g.freeList = ((d2 - 8) ||| Heap.H_FREE) :: fl := by
      rw [hg]
      simp only [Heap.grow_model]
      rw [← hd2def, hsz]
      refine ⟨?_, ?_, ?_, ?_, ?_, ?_⟩ <;> trivial
    obtain ⟨e1, e2, e3, e4, e5, e6⟩ := hgfields
    have hsent := Heap.grow_mem_sentinels m oldHWM (Heap.hmalloc_clamp size0) pageSize d2
      hd2def hp h8
    have hflag : ((d2 - 8) ||| Heap.H_FREE) &&& Heap.H_FREE = 1 := by
      unfold Heap.H_FREE
      rw [Heap.lor_one_of_even _ (by omega), Nat.and_one_is_mod]
      omega
    have hptr : Heap.hmalloc_growPath_ptr pageSize oldHWM size0 = oldHWM + 8 := by
      simp only [Heap.hmalloc_growPath_ptr, Heap.grow_model]
      unfold Heap.H_IS
      omega
    refine ⟨?_, ?_, e2, ?_, ?_, ?_, e4, ?_, ?_, ?_, ?_, ?_, ?_⟩
    · rw [e1]
      simpa using hpd
    · rw [e1]
      omega
    · rw [e3, e1]
    · rw [e2]
      exact hsent.1
    · rw [e3]
      exact hsent.2
    · rw [e5]
      exact hflag
    · rw [e4, e5, e3, hck]
      unfold Heap.H_IS
      omega
    · rw [e5]
      exact e6
    · rw [hptr, e4]
      unfold Heap.H_IS
      omega
    · rw [hptr]
      omega
    · rw [hptr, e1]
      omega


/-- Witness for claim C9: a request of 5000 bytes on a fresh heap (empty
free list, page size 4096): the claimed range is 8192 bytes. -/
theorem Heap.grow_correct_witness :
    (0 : Nat) < 4096 ∧ (8 : Nat) ∣ 4096 ∧
    Heap.fl_findBestFit [] (Heap.hmalloc_clamp 5000) = none ∧
    ((Heap.hmalloc_view [] 4096 0 5000).growCount = 1 ∧
     (let g := Heap.grow_model (Heap.hmalloc_clamp 5000) 4096 0 []
      4096 ∣ (g.newHWM - 0) ∧
      Heap.hmalloc_clamp 5000 + 4 * Heap.H_IS ≤ g.newHWM - 0 ∧
      g.sentLowAddr = 0 ∧
      g.sentHighAddr = g.newHWM - Heap.H_IS ∧
      Heap.grow_mem (fun _ => 7) 0 (Heap.hmalloc_clamp 5000) 4096 g.sentLowAddr = 0 ∧
      Heap.grow_mem (fun _ => 7) 0 (Heap.hmalloc_clamp 5000) 4096 g.sentHighAddr = 0 ∧
      g.chunkAddr = 0 + Heap.H_IS ∧
      g.chunkHdr &&& Heap.H_FREE = 1 ∧
      g.chunkAddr + Heap.ck_size g.chunkHdr = g.sentHighAddr ∧
      g.freeList = g.chunkHdr :: [] ∧
      Heap.hmalloc_growPath_ptr 4096 0 5000 = g.chunkAddr + Heap.H_IS ∧
      0 ≤ Heap.hmalloc_growPath_ptr 4096 0 5000 ∧
      Heap.hmalloc_growPath_ptr 4096 0 5000 < g.newHWM)) :=
  ⟨by decide, by decide, by rfl,
    Heap.grow_correct [] 4096 0 5000 (fun _ => 7) (by decide) (by decide) (by rfl)⟩

namespace Heap

theorem ck_size_of_mod8 (n : Nat) (h : n % 8 = 0) : ck_size n = n := by
  unfold ck_size
  omega

theorem ck_size_mod8 (n : Nat) : ck_size n % 8 = 0 := by
  unfold ck_size
  omega

end Heap

/-- Claim C10: every mutation of a chunk size or flags goes through
ck_setInfo, which writes the same value to the header address and to the
footer address computed from the size bits of that value, so the header
and footer tags of every chunk produced or modified by an operation are
identical afterwards.  Concretely: (1) after ck_setInfo(c, i) both the
header of c and the footer derived from it hold i; (2) after the single
ck_setInfo issued by ck_merge the merged chunk reads the same combined tag
at header and footer; (3) after a successful ck_split both the trimmed
chunk c and the remainder chunk that follows it read equal header and
footer tags (the footer looked up at the address derived from the stored
header). -/
theorem Heap.tags_written_in_pairs :
    (∀ (m : Heap.TagMem) (c i : Nat),
      Heap.ck_setInfo_mem m c i c = i ∧
      Heap.ck_setInfo_mem m c i (Heap.ck_footerAddr c i) = i) ∧
    (∀ (m : Heap.TagMem) (c1 c2 : Nat),
      Heap.ck_merge_mem m c1 c2 c1
        = (Heap.ck_size (m c1) + Heap.ck_size (m c2)) ||| Heap.H_FREE ∧
      Heap.ck_merge_mem m c1 c2
          (Heap.ck_footerAddr c1 (Heap.ck_merge_mem m c1 c2 c1))
        = Heap.ck_merge_mem m c1 c2 c1) ∧
    (∀ (m : Heap.TagMem) (c : Nat) (paysize : Int),
      (Heap.ck_split_mem m c paysize).isSome = true →
      (let mm := (Heap.ck_split_mem m c paysize).getD m
       mm c = mm (Heap.ck_footerAddr c (mm c)) ∧
       (let d := c + Heap.ck_size (mm c)
        mm d = mm (Heap.ck_footerAddr d (mm d))))) := by
  refine ⟨?_, ?_, ?_⟩
  · intro m c i
    exact ⟨Heap.ck_setInfo_mem_header m c i, Heap.ck_setInfo_mem_footer m c i⟩
  · intro m c1 c2
    have hh : Heap.ck_merge_mem m c1 c2 c1
        = (Heap.ck_size (m c1) + Heap.ck_size (m c2)) ||| Heap.H_FREE :=
      Heap.ck_setInfo_mem_header _ _ _
    refine ⟨hh, ?_⟩
    rw [hh]
    exact Heap.ck_setInfo_mem_footer _ _ _
  · intro m c paysize hsome
    by_cases h1 : (Heap.H_MINPAYLOAD : Int) ≤ paysize
    swap
    · exfalso
      simp [Heap.ck_split_mem, h1] at hsome
    by_cases h2 : (Heap.ck_size (m c) : Int) -
        ((Heap.roundUpToPtr paysize.toNat + 2 * Heap.H_IS : Nat) : Int) <
        (Heap.H_MINCHUNK : Int)
    · exfalso
      simp [Heap.ck_split_mem, h1, h2] at hsome
      push_cast at h2
      omega
    set sc := Heap.roundUpToPtr paysize.toNat + 2 * Heap.H_IS with hscdef
    set sdn := ((Heap.ck_size (m c) : Int) - (sc : Int)).toNat with hsdndef
    have heq : Heap.ck_split_mem m c paysize
        = some (Heap.ck_setInfo_mem (Heap.ck_setInfo_mem m c sc)
            ((Heap.ck_footerAddr c sc) + Heap.H_IS) (sdn ||| Heap.H_FREE)) := by
      simp only [Heap.ck_split_mem]
      rw [if_pos h1, if_neg h2]
    have hpays : Heap.roundUpToPtr paysize.toNat % 8 = 0 :=
      Heap.roundUpToPtr_mod8 _
    have hp16 : 16 ≤ Heap.roundUpToPtr paysize.toNat := by
      have ha := Heap.le_roundUpToPtr paysize.toNat
      have hb : 16 ≤ paysize.toNat := by
        unfold Heap.H_MINPAYLOAD Heap.H_PS at h1
        omega
      omega
    have hscmod : sc % 8 = 0 := by
      rw [hscdef]
      unfold Heap.H_IS
      omega
    have hsc24 : 24 ≤ sc := by
      rw [hscdef]
      unfold Heap.H_IS
      omega
    have hsc_ck : Heap.ck_size sc = sc := Heap.ck_size_of_mod8 _ hscmod
    have hcm : Heap.ck_size (m c) % 8 = 0 := Heap.ck_size_mod8 _
    have hge : sc + 24 ≤ Heap.ck_size (m c) := by
      unfold Heap.H_MINCHUNK Heap.H_MINPAYLOAD Heap.H_PS Heap.H_IS at h2
      omega
    have hsdn : sdn = Heap.ck_size (m c) - sc := by
      rw [hsdndef]
      omega
    have hsdn8 : sdn % 8 = 0 := by omega
    have hsdn24 : 24 ≤ sdn := by omega
    have hckhd : Heap.ck_size (sdn ||| Heap.H_FREE) = sdn := by
      unfold Heap.H_FREE
      exact Heap.ck_size_lor_one _ hsdn8
    have hfc : Heap.ck_footerAddr c sc = c + sc - 4 := by
      unfold Heap.ck_footerAddr
      rw [hsc_ck]
      unfold Heap.H_IS
      omega
    have hd_addr : Heap.ck_footerAddr c sc + Heap.H_IS = c + sc := by
      rw [hfc]
      unfold Heap.H_IS
      omega
    intro mm
    have hmm : mm = Heap.ck_setInfo_mem (Heap.ck_setInfo_mem m c sc)
        ((Heap.ck_footerAddr c sc) + Heap.H_IS) (sdn ||| Heap.H_FREE) := by
      show (Heap.ck_split_mem m c paysize).getD m = _
      rw [heq]
      rfl
    rw [hd_addr] at hmm
    have hfd : Heap.ck_footerAddr (c + sc) (sdn ||| Heap.H_FREE)
        = c + sc + sdn - 4 := by
      unfold Heap.ck_footerAddr
      rw [hckhd]
      unfold Heap.H_IS
      omega
    have hmmc : mm c = sc := by
      rw [hmm]
      rw [Heap.ck_setInfo_mem_other _ _ _ _ (by omega) (by rw [hfd]; omega)]
      exact Heap.ck_setInfo_mem_header _ _ _
    constructor
    · rw [hmmc, hfc]
      rw [hmm]
      rw [Heap.ck_setInfo_mem_other _ _ _ _ (by omega) (by rw [hfd]; omega)]
      rw [← hfc]
      exact (Heap.ck_setInfo_mem_footer _ _ _).symm
    · intro d
      have hd2 : d = c + sc := by
        show c + Heap.ck_size (mm c) = c + sc
        rw [hmmc, hsc_ck]
      rw [hd2]
      have hmmd : mm (c + sc) = sdn ||| Heap.H_FREE := by
        rw [hmm]
        exact Heap.ck_setInfo_mem_header _ _ _
      rw [hmmd, hmm]
      exact (Heap.ck_setInfo_mem_footer _ _ _).symm


/-- Witness for claim C10: the split clause of the theorem applied to a
concrete memory holding one chunk of size 64 at address 100 and a split
request for a 16-byte payload. -/
theorem Heap.tags_written_in_pairs_witness :
    (Heap.ck_split_mem Heap.splitWitMem 100 16).isSome = true ∧
    (let mm := (Heap.ck_split_mem Heap.splitWitMem 100 16).getD Heap.splitWitMem
     mm 100 = mm (Heap.ck_footerAddr 100 (mm 100)) ∧
     (let d := 100 + Heap.ck_size (mm 100)
      mm d = mm (Heap.ck_footerAddr d (mm d)))) :=
  ⟨by rfl, Heap.tags_written_in_pairs.2.2 Heap.splitWitMem 100 16 (by rfl)⟩
